import Mathlib

/-!
Shallow embedding of the duplicate-suppression / subscriber-fanout engine of
`news_bot.py`, together with proofs of the specification claims.

Modelling conventions:
* Wall-clock times (`datetime`) are integers counting seconds; a Python
  `timedelta.days` is the floor division of the delta by 86400.
* A stored ISO timestamp string is modelled as `Option Int`: `some t` stands
  for a string that `datetime.fromisoformat` parses to time `t`, `none` for a
  malformed string on which `fromisoformat` raises.
* Python `dict` is modelled as an association list with first-match lookup and
  in-place overwrite on insert, mirroring insertion order.
* Python `float` arithmetic on small Jaccard ratios is modelled with `ℚ`.
* Network sends are modelled by an oracle giving each send's success, and the
  observable behaviour of the stateful methods is captured as explicit event
  traces (`PEvent`, `BEvent`), so that crash prefixes and call counts are
  statable.
-/

namespace NewsBot

/-- Seconds in a day, the unit `timedelta(days=...)` scales by. -/
def secondsPerDay : Int := 86400

/-- `timedelta.days` of a delta of `delta` seconds: floor division by 86400
(Python normalizes negative deltas downward, hence `Int.fdiv`). -/
def timedeltaDays (delta : Int) : Int := Int.fdiv delta secondsPerDay

/-- Python `str.lower()` on the character data (the titles at stake are
compared ASCII-case-insensitively). -/
def lowerStr (s : String) : String := String.mk (s.data.map Char.toLower)

/-- Python `str.strip()`: drop leading and trailing whitespace. -/
def stripStr (s : String) : String :=
  String.mk (((s.data.dropWhile Char.isWhitespace).reverse.dropWhile
    Char.isWhitespace).reverse)

/-- Worker for `tokens`: scan the characters, accumulating the current
(reversed) word and emitting it at each whitespace boundary. -/
def tokensAux : List Char → List Char → List String
  | [], acc => if acc.isEmpty then [] else [String.mk acc.reverse]
  | c :: rest, acc =>
    if c.isWhitespace then
      if acc.isEmpty then tokensAux rest []
      else String.mk acc.reverse :: tokensAux rest []
    else tokensAux rest (c :: acc)

/-- Python `str.split()` with no argument: the maximal whitespace-free runs,
with no empty pieces. -/
def tokens (s : String) : List String := tokensAux s.data []

/-- The word set `set(s.split())` of a string. -/
def wordSet (s : String) : Finset String := (tokens s).toFinset

/-- `SentNewsTracker._similarity`: Jaccard coefficient of the word sets, with
an early `0.0` return when either input *string* is empty, and a guard against
division by an empty union. The float ratio `intersection / union` is modelled
by the exact rational `mkRat intersection union` (the comparisons the claims
involve are identical for the two). -/
def similarity (s1 s2 : String) : ℚ :=
  if s1 = "" ∨ s2 = "" then 0
  else
    let words1 := wordSet s1
    let words2 := wordSet s2
    let intersection := (words1 ∩ words2).card
    let union := (words1 ∪ words2).card
    if 0 < union then mkRat intersection union else 0

/-- Jaccard coefficient of two finite word sets, 0 when either set is empty. -/
def jaccardOfSets (w1 w2 : Finset String) : ℚ :=
  if w1 = ∅ ∨ w2 = ∅ then 0
  else mkRat ((w1 ∩ w2).card) ((w1 ∪ w2).card)

/-- Spec-side similarity, following the spec's words: the Jaccard coefficient
over whitespace-tokenized, *lower-cased* word sets, 0 if either set is empty.
Used only to compare against the source's `similarity`. -/
def similaritySpec (s1 s2 : String) : ℚ :=
  jaccardOfSets (wordSet (lowerStr s1)) (wordSet (lowerStr s2))

/-- Spec formula without the intrinsic lower-casing: the Jaccard coefficient
over whitespace-tokenized word sets of the inputs as given, 0 if either set is
empty. -/
def similarityAsGiven (s1 s2 : String) : ℚ :=
  jaccardOfSets (wordSet s1) (wordSet s2)

/-- One value of the `sent_news` dict: `{'title': ..., 'sent_at': ...}`, with
the timestamp string abstracted to its parse result. -/
structure DeliveryRecord where
  title : String
  sent_at : Option Int
deriving DecidableEq, Repr

/-- First-match lookup in an association list (Python `d[k]` / `k in d`). -/
def dictGet : List (String × DeliveryRecord) → String → Option DeliveryRecord
  | [], _ => none
  | (k, v) :: rest, key => if k = key then some v else dictGet rest key

/-- Insert-or-overwrite preserving insertion order (Python `d[k] = v`). -/
def dictSet : List (String × DeliveryRecord) → String → DeliveryRecord → List (String × DeliveryRecord)
  | [], key, v => [(key, v)]
  | (k, w) :: rest, key, v =>
    if k = key then (key, v) :: rest else (k, w) :: dictSet rest key v

/-- The exact-URL branch of `is_duplicate`: the URL's record exists, its
timestamp parses, and it is less than 7 days old; a malformed timestamp is
swallowed by the bare `except` and yields no match. -/
def urlRecent (sent : List (String × DeliveryRecord)) (now : Int) (url : String) : Bool :=
  match dictGet sent url with
  | some r =>
    match r.sent_at with
    | some t => timedeltaDays (now - t) < 7
    | none => false
  | none => false

/-- The fuzzy-title test of `is_duplicate` against one stored record:
similarity of the normalized titles strictly above 0.85, and the record's
timestamp parses to less than 3 days ago; a malformed timestamp is swallowed
by the bare `except` and yields no match. -/
def titleMatch (now : Int) (titleLower : String) (r : DeliveryRecord) : Bool :=
  if similarity titleLower (stripStr (lowerStr r.title)) > mkRat 85 100 then
    match r.sent_at with
    | some t => timedeltaDays (now - t) < 3
    | none => false
  else false

/-- `SentNewsTracker.is_duplicate`: exact-URL check within 7 days, else a scan
of all stored records for a near-duplicate lower-cased stripped title within
3 days. -/
def is_duplicate (sent : List (String × DeliveryRecord)) (now : Int)
    (url title : String) : Bool :=
  if urlRecent sent now url then true
  else sent.any (fun p => titleMatch now (stripStr (lowerStr title)) p.2)

/-- `SentNewsTracker.mark_as_sent`: record the URL with its title and the
current time (always a well-formed timestamp). Persistence of the snapshot is
not observable in the claims about this method. -/
def mark_as_sent (sent : List (String × DeliveryRecord)) (url title : String)
    (now : Int) : List (String × DeliveryRecord) :=
  dictSet sent url ⟨title, some now⟩

/-- Result of a successful `cleanup_old_entries` call: the new dict, whether
`save_sent_news` ran, and the method's Python return value (there is no
`return` statement, so it is `None`, modelled as `none`). -/
structure CleanupOutcome where
  sent_news : List (String × DeliveryRecord)
  persisted : Bool
  ret : Option Int
deriving DecidableEq, Repr

deriving instance DecidableEq for Except

/-- `SentNewsTracker.cleanup_old_entries`: keep the records strictly newer
than `now - days`; persist only when something was removed. The dict
comprehension calls `datetime.fromisoformat` on every stored timestamp, so a
malformed timestamp raises before `self.sent_news` is reassigned; that raised
call is `Except.error ()`. -/
def cleanup_old_entries (sent : List (String × DeliveryRecord)) (now days : Int) :
    Except Unit CleanupOutcome :=
  let cutoff := now - days * secondsPerDay
  if sent.all (fun p => p.2.sent_at.isSome) then
    let kept := sent.filter (fun p =>
      match p.2.sent_at with
      | some t => decide (cutoff < t)
      | none => false)
    Except.ok ⟨kept, decide (0 < sent.length - kept.length), none⟩
  else Except.error ()

/-- The tracker state an observer sees after calling `cleanup_old_entries`:
on a raise, `self.sent_news` still holds its old value and nothing was
persisted. -/
def cleanup_run (sent : List (String × DeliveryRecord)) (now days : Int) :
    List (String × DeliveryRecord) × Bool :=
  match cleanup_old_entries sent now days with
  | Except.ok o => (o.sent_news, o.persisted)
  | Except.error _ => (sent, false)

/-- `SubscriberManager.add_subscriber`: insert if absent and report whether the
id was newly added. -/
def add_subscriber (subs : Finset String) (chat : String) : Bool × Finset String :=
  if chat ∉ subs then (true, insert chat subs) else (false, subs)

/-- `SubscriberManager.remove_subscriber`: delete if present and report whether
a removal occurred. -/
def remove_subscriber (subs : Finset String) (chat : String) : Bool × Finset String :=
  if chat ∈ subs then (true, subs.erase chat) else (false, subs)

/-- Condition of a backing file at startup: absent, unreadable/unparsable, or
holding parsed data. -/
inductive LoadResult (α : Type) where
  | missing
  | corrupt
  | ok (data : α)

/-- `SubscriberManager.load_subscribers`: a missing file falls through to
`return set()`, a corrupt one is caught and also yields `set()`. -/
def load_subscribers : LoadResult (List String) → Finset String
  | LoadResult.ok l => l.toFinset
  | _ => ∅

/-- `SentNewsTracker.load_sent_news`: missing or corrupt history yields the
empty dict. -/
def load_sent_news : LoadResult (List (String × DeliveryRecord)) →
    List (String × DeliveryRecord)
  | LoadResult.ok d => d
  | _ => []

/-- `TelegramBot._load_bot_state`: missing or corrupt state yields
`last_update_id = 0`. -/
def load_bot_state : LoadResult Int → Int
  | LoadResult.ok n => n
  | _ => 0

/-- One inbound Telegram update as `process_updates` reads it:
`update.get('update_id', 0)` (absent field modelled as `none`), the chat id
already passed through `str(...)`, and the message text. -/
structure Update where
  update_id : Option Int
  chat : String
  text : String
deriving DecidableEq, Repr

/-- `update.get('update_id', 0)`. -/
def uidOf (u : Update) : Int := u.update_id.getD 0

/-- The fixed replies `process_updates` sends, abstracted from their HTML
bodies. -/
inductive ReplyMsg where
  | welcome
  | alreadySubscribed
  | unsubscribed
  | notSubscribed
  | statusReply (subscribed : Bool)
deriving DecidableEq, Repr

/-- Observable steps of `process_updates`, in program order: persisting
`last_update_id`, the registry mutation calls, and the outgoing replies. -/
inductive PEvent where
  | saveOffset (n : Int)
  | addSub (chat : String) (added : Bool)
  | removeSub (chat : String) (removed : Bool)
  | reply (chat : String) (m : ReplyMsg)
deriving DecidableEq, Repr

/-- Whether an event is a registry mutation call (`add_subscriber` /
`remove_subscriber`). -/
def isRegistryMutation : PEvent → Bool
  | PEvent.addSub _ _ => true
  | PEvent.removeSub _ _ => true
  | _ => false

/-- Whether a list of integers is monotonically non-decreasing. -/
def nondecreasing : List Int → Bool
  | [] => true
  | [_] => true
  | a :: b :: rest => a ≤ b && nondecreasing (b :: rest)

/-- The offsets persisted by the `_save_bot_state` calls of a trace, in
order. -/
def savedOffsets (tr : List PEvent) : List Int :=
  tr.filterMap (fun e =>
    match e with
    | PEvent.saveOffset n => some n
    | _ => none)

/-- The body of the `for update in updates` loop of
`TelegramBot.process_updates`: assign `last_update_id`, persist it, then
dispatch on the command text. Returns the new subscriber set, the new
`last_update_id`, and the event trace in execution order. -/
def processUpdate (subs : Finset String) (u : Update) :
    Finset String × Int × List PEvent :=
  let uid := uidOf u
  if u.text = "/start" then
    let res := add_subscriber subs u.chat
    if res.1 then
      (res.2, uid, [PEvent.saveOffset uid, PEvent.addSub u.chat true,
        PEvent.reply u.chat ReplyMsg.welcome])
    else
      (res.2, uid, [PEvent.saveOffset uid, PEvent.addSub u.chat false,
        PEvent.reply u.chat ReplyMsg.alreadySubscribed])
  else if u.text = "/stop" then
    let res := remove_subscriber subs u.chat
    if res.1 then
      (res.2, uid, [PEvent.saveOffset uid, PEvent.removeSub u.chat true,
        PEvent.reply u.chat ReplyMsg.unsubscribed])
    else
      (res.2, uid, [PEvent.saveOffset uid, PEvent.removeSub u.chat false,
        PEvent.reply u.chat ReplyMsg.notSubscribed])
  else if u.text = "/status" then
    (subs, uid, [PEvent.saveOffset uid,
      PEvent.reply u.chat (ReplyMsg.statusReply (decide (u.chat ∈ subs)))])
  else
    (subs, uid, [PEvent.saveOffset uid])

/-- `TelegramBot.process_updates` over a polled batch: fold `processUpdate`
over the updates, threading the subscriber set and `last_update_id` and
concatenating the traces. -/
def processUpdates (subs : Finset String) (off : Int) :
    List Update → Finset String × Int × List PEvent
  | [] => (subs, off, [])
  | u :: rest =>
    let r := processUpdate subs u
    let r2 := processUpdates r.1 r.2.1 rest
    (r2.1, r2.2.1, r.2.2 ++ r2.2.2)

/-- One article as `broadcast_articles` consumes it: canonical URL, original
title, and the translated title when the translator added one
(`article.get('title_uk', article.get('title', ''))`). -/
structure Article where
  url : String
  title : String
  title_uk : Option String
deriving DecidableEq, Repr

/-- The title under which an article is recorded as sent. -/
def deliveredTitle (a : Article) : String := a.title_uk.getD a.title

/-- The message payloads `broadcast_articles` sends, abstracted from their
formatted HTML bodies: the batch header with the item count, one formatted
article, and the completion notice. -/
inductive BMsg where
  | header (n : Nat)
  | item (a : Article)
  | footer
deriving DecidableEq, Repr

/-- Observable steps of `broadcast_articles`: `mark_as_sent` calls and
`send_message` calls with the success the transport reported. -/
inductive BEvent where
  | markDelivered (url title : String)
  | send (chat : String) (msg : BMsg) (ok : Bool)
deriving DecidableEq, Repr

/-- Whether an event is a `mark_as_sent` call. -/
def isMark : BEvent → Bool
  | BEvent.markDelivered _ _ => true
  | _ => false

/-- Whether an event is a `send_message` call. -/
def isSend : BEvent → Bool
  | BEvent.send _ _ _ => true
  | _ => false

/-- `TelegramBot.broadcast_articles`: no-op when there are no subscribers or
no articles; otherwise mark every article as sent first, then for each
subscriber send the batch header, every article, and the completion notice.
`sendOk` is the transport's success oracle; the code logs but otherwise
ignores each send's result. Returns the updated dedup dict and the event
trace in execution order. -/
def broadcast_articles (sendOk : String → BMsg → Bool) (subs : List String)
    (arts : List Article) (sent : List (String × DeliveryRecord)) (now : Int) :
    List (String × DeliveryRecord) × List BEvent :=
  if subs.isEmpty then (sent, [])
  else if arts.isEmpty then (sent, [])
  else
    (arts.foldl (fun acc a => mark_as_sent acc a.url (deliveredTitle a) now) sent,
      arts.map (fun a => BEvent.markDelivered a.url (deliveredTitle a)) ++
        (subs.map (fun c =>
          BEvent.send c (BMsg.header arts.length)
              (sendOk c (BMsg.header arts.length)) ::
            (arts.map (fun a => BEvent.send c (BMsg.item a) (sendOk c (BMsg.item a))) ++
              [BEvent.send c BMsg.footer (sendOk c BMsg.footer)]))).flatten)

/-! ## Helper lemmas -/

theorem wordSet_empty_of_str_empty : wordSet "" = ∅ := by decide

theorem mkRat_zero_num (n : Nat) : mkRat (0 : Int) n = 0 := by
  rw [Rat.mkRat_eq_divInt]
  exact Rat.zero_divInt n

/-! ## Claim theorems -/

/-- Claim C5, counterexample: the source's `_similarity` does not itself
lower-case its inputs (its callers do), so on inputs of different case it
differs from the Jaccard coefficient over lower-cased word sets that the claim
describes. -/
theorem similarity_no_lowercase_cex :
    similarity "A" "a" = 0 ∧ similaritySpec "A" "a" = 1 ∧ (0 : ℚ) ≠ 1 := by
  decide

/-- Claim C5 as amended: `_similarity` computes the Jaccard coefficient
`card (A ∩ B) / card (A ∪ B)` over the whitespace-tokenized word sets of its
inputs as given (the callers lower-case the titles before calling it), it is 0
whenever either word set is empty, and on the spec's examples it gives
`similarity "a b c" "a b d" = 1/2` and `similarity "" "x" = 0`. -/
theorem similarity_jaccard (s1 s2 : String) :
    similarity s1 s2 = similarityAsGiven s1 s2 ∧
    similarity "a b c" "a b d" = mkRat 1 2 ∧
    similarity "" "x" = 0 := by
  refine ⟨?_, by decide, by decide⟩
  unfold similarity similarityAsGiven jaccardOfSets
  by_cases h : s1 = "" ∨ s2 = ""
  · rw [if_pos h, if_pos]
    rcases h with h | h <;> rw [h]
    · exact Or.inl wordSet_empty_of_str_empty
    · exact Or.inr wordSet_empty_of_str_empty
  · rw [if_neg h]
    simp only []
    by_cases hw : wordSet s1 = ∅ ∨ wordSet s2 = ∅
    · rw [if_pos hw]
      have hint : (wordSet s1 ∩ wordSet s2).card = 0 := by
        rcases hw with hw | hw <;> rw [hw] <;> simp
      rw [hint]
      simp [mkRat_zero_num]
    · rw [if_neg hw]
      push_neg at hw
      have hne : (wordSet s1 ∪ wordSet s2).Nonempty :=
        (Finset.nonempty_iff_ne_empty.mpr hw.1).mono Finset.subset_union_left
      rw [if_pos (Finset.card_pos.mpr hne)]

/-- Claim C2, counterexample: at Jaccard similarity exactly 0.85 (a stored
17-token title against a 20-token input sharing all 17 tokens) and a delivery
timestamp well inside the 3-day fuzzy horizon, `is_duplicate` returns false,
because the source compares with strict `> 0.85`, not `≥ 0.85`. -/
theorem fuzzy_threshold_cex :
    similarity "a b c d e f g h i j k l m n o p q r s t"
        "a b c d e f g h i j k l m n o p q" = mkRat 85 100 ∧
    timedeltaDays (0 - 0) < 3 ∧
    is_duplicate [("u1", ⟨"a b c d e f g h i j k l m n o p q", some 0⟩)] 0
      "u2" "a b c d e f g h i j k l m n o p q r s t" = false := by
  refine ⟨by decide, by decide, by decide⟩

/-- Claim C2 as amended: for every stored record whose normalized title has
Jaccard similarity *strictly greater than* 0.85 against the normalized input
title and whose delivery timestamp parses to within the 3-day fuzzy horizon,
`is_duplicate` returns true, for any input identity (at similarity exactly
0.85 it returns false, see the counterexample). -/
theorem fuzzy_duplicate_strict (sent : List (String × DeliveryRecord))
    (now t : Int) (url title key : String) (r : DeliveryRecord)
    (hmem : (key, r) ∈ sent) (hts : r.sent_at = some t)
    (hsim : similarity (stripStr (lowerStr title)) (stripStr (lowerStr r.title)) >
      mkRat 85 100)
    (hhor : timedeltaDays (now - t) < 3) :
    is_duplicate sent now url title = true := by
  unfold is_duplicate
  split
  · rfl
  · rw [List.any_eq_true]
    refine ⟨(key, r), hmem, ?_⟩
    unfold titleMatch
    rw [if_pos hsim, hts]
    exact decide_eq_true hhor

/-- Witness for `fuzzy_duplicate_strict`: a stored record with an identical
(hence similarity-1) title under a different identity, delivered just now, is
flagged as a duplicate. -/
theorem fuzzy_duplicate_strict_witness :
    ((("u1", (⟨"bank x files for bankruptcy", some 0⟩ : DeliveryRecord)) ∈
      [("u1", (⟨"bank x files for bankruptcy", some 0⟩ : DeliveryRecord))]) ∧
      similarity (stripStr (lowerStr "bank x files for bankruptcy"))
        (stripStr (lowerStr "bank x files for bankruptcy")) > mkRat 85 100 ∧
      timedeltaDays ((0 : Int) - 0) < 3) ∧
    is_duplicate [("u1", ⟨"bank x files for bankruptcy", some 0⟩)] 0 "u2"
      "bank x files for bankruptcy" = true :=
  ⟨⟨by decide, by decide, by decide⟩,
    fuzzy_duplicate_strict [("u1", ⟨"bank x files for bankruptcy", some 0⟩)]
      0 0 "u2" "bank x files for bankruptcy" "u1"
      ⟨"bank x files for bankruptcy", some 0⟩
      (by decide) rfl (by decide) (by decide)⟩

theorem processUpdate_savedOffsets (subs : Finset String) (u : Update) :
    savedOffsets (processUpdate subs u).2.2 = [uidOf u] := by
  simp only [processUpdate]
  split_ifs <;> simp [savedOffsets]

theorem processUpdate_offset (subs : Finset String) (u : Update) :
    (processUpdate subs u).2.1 = uidOf u := by
  simp only [processUpdate]
  split_ifs <;> rfl

theorem processUpdates_savedOffsets (us : List Update) (subs : Finset String)
    (off : Int) :
    savedOffsets (processUpdates subs off us).2.2 = us.map uidOf := by
  induction us generalizing subs off with
  | nil => rfl
  | cons u rest ih =>
    show savedOffsets ((processUpdate subs u).2.2 ++ _) = _
    unfold savedOffsets
    rw [List.filterMap_append]
    show savedOffsets _ ++ savedOffsets _ = _
    rw [processUpdate_savedOffsets, ih]
    rfl

theorem processUpdates_offset (us : List Update) (subs : Finset String)
    (off : Int) :
    (processUpdates subs off us).2.1 = (us.map uidOf).getLastD off := by
  induction us generalizing subs off with
  | nil => rfl
  | cons u rest ih =>
    show (processUpdates (processUpdate subs u).1 (processUpdate subs u).2.1
      rest).2.1 = _
    rw [ih, processUpdate_offset, List.map_cons, List.getLastD_cons]

/-- Claim C1, counterexample: for the command `{update_id: 5, text: "/start"}`
consumed from an empty registry, the one-event crash prefix of the processing
trace contains the persisted offset 5 but no registry mutation: the offset is
persisted *before* the mutation, so a crash before the mutation can leave the
offset advanced past the command. -/
theorem offset_before_mutation_cex :
    ((processUpdate ∅ ⟨some 5, "42", "/start"⟩).2.2.take 1).any
        isRegistryMutation = false ∧
    savedOffsets ((processUpdate ∅ ⟨some 5, "42", "/start"⟩).2.2.take 1) =
      [5] := by
  refine ⟨by decide, by decide⟩

/-- Claim C1 as amended: for every consumed command, advancing and persisting
the offset to that command's sequence number is the *first* step of its
processing, before any registry mutation; it is persisted exactly once per
command, so a crash after that first step but before the mutation leaves the
offset advanced past the not-yet-applied command. -/
theorem offset_persisted_first (subs : Finset String) (u : Update) :
    (processUpdate subs u).2.2.head? = some (PEvent.saveOffset (uidOf u)) ∧
    savedOffsets (processUpdate subs u).2.2 = [uidOf u] := by
  refine ⟨?_, processUpdate_savedOffsets subs u⟩
  simp only [processUpdate]
  split_ifs <;> rfl

/-- Claim C9, counterexample: `process_updates` assigns each consumed update's
id to the offset rather than taking a maximum, so consuming a batch with
sequence numbers `[9, 5]` persists 9 and then 5 — the stored offset is not
monotonically non-decreasing for every sequence of consumed updates. -/
theorem offset_regress_cex :
    savedOffsets (processUpdates ∅ 0
        [⟨some 9, "a", "x"⟩, ⟨some 5, "a", "x"⟩]).2.2 = [9, 5] ∧
    nondecreasing ((0 : Int) :: savedOffsets (processUpdates
        ∅ 0 [⟨some 9, "a", "x"⟩, ⟨some 5, "a", "x"⟩]).2.2) = false := by
  refine ⟨by decide, by decide⟩

/-- Claim C9 as amended: every consumed command's sequence number is persisted
as the new offset (assignment, not maximum), so whenever the consumed sequence
numbers are non-decreasing and start at or above the current offset — as they
are when the transport serves updates from `offset + 1` upward in order — the
persisted offsets are monotonically non-decreasing, and the final offset is
the last consumed sequence number; in particular consuming `[5, 7, 9]` from
offset 0 leaves offset 9. -/
theorem offset_monotone_when_sorted (subs : Finset String) (off : Int)
    (us : List Update)
    (h : nondecreasing (off :: us.map uidOf) = true) :
    nondecreasing (off :: savedOffsets (processUpdates subs off us).2.2) = true ∧
    (processUpdates subs off us).2.1 = (us.map uidOf).getLastD off := by
  rw [processUpdates_savedOffsets]
  exact ⟨h, processUpdates_offset us subs off⟩

/-- Witness for `offset_monotone_when_sorted`: consuming sequence numbers
`[5, 7, 9]` from offset 0 persists a non-decreasing chain of offsets and
leaves the final offset at 9. -/
theorem offset_monotone_when_sorted_witness :
    nondecreasing ((0 : Int) ::
      ([⟨some 5, "a", "x"⟩, ⟨some 7, "a", "x"⟩,
        ⟨some 9, "a", "x"⟩] : List Update).map uidOf) = true ∧
    nondecreasing ((0 : Int) :: savedOffsets (processUpdates
      ∅ 0 [⟨some 5, "a", "x"⟩, ⟨some 7, "a", "x"⟩,
      ⟨some 9, "a", "x"⟩]).2.2) = true ∧
    (processUpdates ∅ 0 [⟨some 5, "a", "x"⟩, ⟨some 7, "a", "x"⟩,
      ⟨some 9, "a", "x"⟩]).2.1 = 9 := by
  have h := offset_monotone_when_sorted ∅ 0
    [⟨some 5, "a", "x"⟩, ⟨some 7, "a", "x"⟩, ⟨some 9, "a", "x"⟩] (by decide)
  refine ⟨by decide, h.1, ?_⟩
  rw [h.2]
  decide

/-- Claim C6, counterexample: when the identity is *already present*, calling
`add_subscriber` twice in a row leaves the membership size unchanged, not
increased by exactly 1 as the claim states for every registry state. -/
theorem add_twice_present_cex :
    ((add_subscriber (add_subscriber {"42"} "42").2 "42").2).card =
      ({"42"} : Finset String).card ∧
    ({"42"} : Finset String).card = 1 := by
  refine ⟨by decide, by decide⟩

/-- Claim C6 as amended: `add_subscriber` is idempotent — from a state where
the id is absent, calling it twice increases membership size by exactly 1
(never 2; from a state where the id is present the size is unchanged, see
the counterexample), the first call returns true and the second false; and
`remove_subscriber` returns whether a removal occurred, both before and after
the insertion. -/
theorem add_idempotent (s : Finset String) (id : String) (h : id ∉ s) :
    (add_subscriber s id).1 = true ∧
    ((add_subscriber s id).2).card = s.card + 1 ∧
    (add_subscriber (add_subscriber s id).2 id).1 = false ∧
    ((add_subscriber (add_subscriber s id).2 id).2).card = s.card + 1 ∧
    (remove_subscriber s id).1 = decide (id ∈ s) ∧
    (remove_subscriber (add_subscriber s id).2 id).1 =
      decide (id ∈ (add_subscriber s id).2) := by
  unfold add_subscriber remove_subscriber
  rw [if_pos h]
  have hmem : id ∈ insert id s := Finset.mem_insert_self id s
  rw [if_neg (by simp [hmem]), if_neg (fun hs => h hs), if_pos hmem]
  refine ⟨rfl, Finset.card_insert_of_not_mem h, rfl,
    Finset.card_insert_of_not_mem h, ?_, ?_⟩
  · simp [h]
  · simp [hmem]

/-- Witness for `add_idempotent`: subscribing `"42"` twice from the empty
registry. -/
theorem add_idempotent_witness :
    ("42" ∉ (∅ : Finset String)) ∧
    ((add_subscriber ∅ "42").1 = true ∧
      ((add_subscriber ∅ "42").2).card = (∅ : Finset String).card + 1 ∧
      (add_subscriber (add_subscriber ∅ "42").2 "42").1 = false ∧
      ((add_subscriber (add_subscriber ∅ "42").2 "42").2).card =
        (∅ : Finset String).card + 1 ∧
      (remove_subscriber ∅ "42").1 = decide ("42" ∈ (∅ : Finset String)) ∧
      (remove_subscriber (add_subscriber ∅ "42").2 "42").1 =
        decide ("42" ∈ (add_subscriber ∅ "42").2)) :=
  ⟨by decide, add_idempotent ∅ "42" (by decide)⟩

/-- Claim C8: a missing or corrupt subscribers file yields the empty registry,
a missing or corrupt delivery-record file yields the empty dedup history, and
a missing or corrupt offset file yields offset 0 — startup never fails on
corrupt state. -/
theorem corrupt_load_empty :
    load_subscribers LoadResult.missing = (∅ : Finset String) ∧
    load_subscribers LoadResult.corrupt = (∅ : Finset String) ∧
    load_sent_news LoadResult.missing = [] ∧
    load_sent_news LoadResult.corrupt = [] ∧
    load_bot_state LoadResult.missing = 0 ∧
    load_bot_state LoadResult.corrupt = 0 :=
  ⟨rfl, rfl, rfl, rfl, rfl, rfl⟩

/-- Claim C10: when any stored record's timestamp is malformed,
`cleanup_old_entries` raises (the dict comprehension evaluates
`datetime.fromisoformat` on every record before `self.sent_news` is
reassigned), and the caller-observed state is completely unchanged: no record
is removed and nothing is persisted. -/
theorem sweep_raises_on_malformed (sent : List (String × DeliveryRecord))
    (now days : Int) (p : String × DeliveryRecord)
    (hp : p ∈ sent) (hbad : p.2.sent_at = none) :
    cleanup_old_entries sent now days = Except.error () ∧
    cleanup_run sent now days = (sent, false) := by
  have hall : sent.all (fun q => q.2.sent_at.isSome) = false := by
    rw [List.all_eq_false]
    exact ⟨p, hp, by simp [hbad]⟩
  have herr : cleanup_old_entries sent now days = Except.error () := by
    unfold cleanup_old_entries
    rw [if_neg]
    simp [hall]
  refine ⟨herr, ?_⟩
  unfold cleanup_run
  rw [herr]

/-- Witness for `sweep_raises_on_malformed`: a single record with a malformed
timestamp makes the sweep raise and leaves the store as it was. -/
theorem sweep_raises_on_malformed_witness :
    ((("u1", (⟨"X", none⟩ : DeliveryRecord)) ∈
        [("u1", (⟨"X", none⟩ : DeliveryRecord))]) ∧
      (("u1", (⟨"X", none⟩ : DeliveryRecord)) : String × DeliveryRecord).2.sent_at =
        none) ∧
    cleanup_old_entries [("u1", ⟨"X", none⟩)] 0 30 = Except.error () ∧
    cleanup_run [("u1", ⟨"X", none⟩)] 0 30 = ([("u1", ⟨"X", none⟩)], false) :=
  ⟨⟨by decide, rfl⟩,
    sweep_raises_on_malformed [("u1", ⟨"X", none⟩)] 0 30
      ("u1", ⟨"X", none⟩) (by decide) rfl⟩

theorem dictGet_append (pre l : List (String × DeliveryRecord)) (url : String) :
    dictGet (pre ++ l) url =
      match dictGet pre url with
      | some v => some v
      | none => dictGet l url := by
  induction pre with
  | nil => rfl
  | cons hd tl ih =>
    rw [List.cons_append]
    by_cases hk : hd.1 = url
    · simp [dictGet, hk]
    · simp [dictGet, hk, ih]

theorem dictGet_eq_none (l : List (String × DeliveryRecord)) (key : String)
    (h : key ∉ l.map Prod.fst) : dictGet l key = none := by
  induction l with
  | nil => rfl
  | cons hd tl ih =>
    rw [List.map_cons, List.mem_cons] at h
    push_neg at h
    show (if hd.1 = key then some hd.2 else dictGet tl key) = none
    rw [if_neg (fun he => h.1 he.symm)]
    exact ih h.2

theorem titleMatch_of_malformed (now : Int) (tl : String) (r : DeliveryRecord)
    (hbad : r.sent_at = none) : titleMatch now tl r = false := by
  unfold titleMatch
  rw [hbad]
  split <;> rfl

theorem urlRecent_skip_malformed (pre post : List (String × DeliveryRecord))
    (key : String) (r : DeliveryRecord) (now : Int) (url : String)
    (hbad : r.sent_at = none)
    (hkey : key ∉ (pre ++ post).map Prod.fst) :
    urlRecent (pre ++ (key, r) :: post) now url =
      urlRecent (pre ++ post) now url := by
  rw [List.map_append, List.mem_append] at hkey
  push_neg at hkey
  unfold urlRecent
  rw [dictGet_append, dictGet_append]
  cases hpre : dictGet pre url with
  | some v => rfl
  | none =>
    by_cases hk : key = url
    · subst hk
      have hpost : dictGet post key = none := dictGet_eq_none post key hkey.2
      simp [dictGet, hbad, hpost]
    · simp [dictGet, hk]

/-- Claim C7: a stored record whose timestamp is malformed never contributes a
duplicate verdict — `is_duplicate` (a total function; the parse failures are
swallowed by the bare `except` clauses) gives the same answer as on the store
with that record removed, for every input identity and title. -/
theorem malformed_no_dup (pre post : List (String × DeliveryRecord))
    (key : String) (r : DeliveryRecord) (now : Int) (url title : String)
    (hbad : r.sent_at = none)
    (hkey : key ∉ (pre ++ post).map Prod.fst) :
    is_duplicate (pre ++ (key, r) :: post) now url title =
      is_duplicate (pre ++ post) now url title := by
  unfold is_duplicate
  rw [urlRecent_skip_malformed pre post key r now url hbad hkey]
  by_cases hu : urlRecent (pre ++ post) now url = true
  · rw [if_pos hu, if_pos hu]
  · rw [if_neg hu, if_neg hu, List.any_append, List.any_append, List.any_cons,
      titleMatch_of_malformed now (stripStr (lowerStr title)) r hbad]
    rw [Bool.false_or]

/-- Witness for `malformed_no_dup`: a store holding only one malformed record
answers exactly as the empty store, even for that record's own URL and
title. -/
theorem malformed_no_dup_witness :
    ((⟨"t", none⟩ : DeliveryRecord).sent_at = none ∧
      "u1" ∉ (([] ++ []: List (String × DeliveryRecord))).map Prod.fst) ∧
    is_duplicate [("u1", ⟨"t", none⟩)] 0 "u1" "t" =
      is_duplicate [] 0 "u1" "t" :=
  ⟨⟨rfl, by decide⟩,
    malformed_no_dup [] [] "u1" ⟨"t", none⟩ 0 "u1" "t" rfl (by decide)⟩

/-- Claim C3: for every broadcast of a non-empty article list to a non-empty
subscriber snapshot, the event trace is exactly all the `mark_as_sent` calls
(one per article) followed by all the `send_message` calls (per subscriber:
one batch header, each article, one completion notice), independent of which
sends the transport reports as failed. -/
theorem broadcast_marks_before_sends (sendOk : String → BMsg → Bool)
    (subs : List String) (arts : List Article)
    (sent : List (String × DeliveryRecord)) (now : Int)
    (h1 : subs ≠ []) (h2 : arts ≠ []) :
    ((broadcast_articles sendOk subs arts sent now).2.filter isMark).length =
      arts.length ∧
    ((broadcast_articles sendOk subs arts sent now).2.filter isSend).length =
      subs.length * (arts.length + 2) ∧
    (broadcast_articles sendOk subs arts sent now).2 =
      (broadcast_articles sendOk subs arts sent now).2.filter isMark ++
        (broadcast_articles sendOk subs arts sent now).2.filter isSend := by
  have hs : subs.isEmpty = false := by simp [List.isEmpty_iff, h1]
  have ha : arts.isEmpty = false := by simp [List.isEmpty_iff, h2]
  have hev : (broadcast_articles sendOk subs arts sent now).2 =
      arts.map (fun a => BEvent.markDelivered a.url (deliveredTitle a)) ++
        (subs.map (fun c =>
          BEvent.send c (BMsg.header arts.length)
              (sendOk c (BMsg.header arts.length)) ::
            (arts.map (fun a =>
                BEvent.send c (BMsg.item a) (sendOk c (BMsg.item a))) ++
              [BEvent.send c BMsg.footer (sendOk c BMsg.footer)]))).flatten := by
    unfold broadcast_articles
    rw [hs, ha]
    rfl
  have hMmark : (arts.map (fun a =>
      BEvent.markDelivered a.url (deliveredTitle a))).filter isMark =
      arts.map (fun a => BEvent.markDelivered a.url (deliveredTitle a)) := by
    rw [List.filter_eq_self]
    intro e he
    obtain ⟨a, _, rfl⟩ := List.mem_map.mp he
    rfl
  have hMsend : (arts.map (fun a =>
      BEvent.markDelivered a.url (deliveredTitle a))).filter isSend = [] := by
    rw [List.filter_eq_nil_iff]
    intro e he
    obtain ⟨a, _, rfl⟩ := List.mem_map.mp he
    simp [isSend]
  have hSsendMem : ∀ e ∈ (subs.map (fun c =>
      BEvent.send c (BMsg.header arts.length)
          (sendOk c (BMsg.header arts.length)) ::
        (arts.map (fun a =>
            BEvent.send c (BMsg.item a) (sendOk c (BMsg.item a))) ++
          [BEvent.send c BMsg.footer (sendOk c BMsg.footer)]))).flatten,
      isSend e = true := by
    intro e he
    obtain ⟨l, hl, hel⟩ := List.mem_flatten.mp he
    obtain ⟨c, _, rfl⟩ := List.mem_map.mp hl
    rcases List.mem_cons.mp hel with rfl | hel2
    · rfl
    rcases List.mem_append.mp hel2 with hx | hx
    · obtain ⟨a, _, rfl⟩ := List.mem_map.mp hx
      rfl
    · rw [List.mem_singleton.mp hx]
      rfl
  have hSsend : ((subs.map (fun c =>
      BEvent.send c (BMsg.header arts.length)
          (sendOk c (BMsg.header arts.length)) ::
        (arts.map (fun a =>
            BEvent.send c (BMsg.item a) (sendOk c (BMsg.item a))) ++
          [BEvent.send c BMsg.footer (sendOk c BMsg.footer)]))).flatten).filter
        isSend =
      (subs.map (fun c =>
        BEvent.send c (BMsg.header arts.length)
            (sendOk c (BMsg.header arts.length)) ::
          (arts.map (fun a =>
              BEvent.send c (BMsg.item a) (sendOk c (BMsg.item a))) ++
            [BEvent.send c BMsg.footer (sendOk c BMsg.footer)]))).flatten := by
    rw [List.filter_eq_self]
    exact hSsendMem
  have hSmark : ((subs.map (fun c =>
      BEvent.send c (BMsg.header arts.length)
          (sendOk c (BMsg.header arts.length)) ::
        (arts.map (fun a =>
            BEvent.send c (BMsg.item a) (sendOk c (BMsg.item a))) ++
          [BEvent.send c BMsg.footer (sendOk c BMsg.footer)]))).flatten).filter
        isMark = [] := by
    rw [List.filter_eq_nil_iff]
    intro e he
    have := hSsendMem e he
    intro hm
    cases e with
    | markDelivered u t => exact absurd this (by simp [isSend])
    | send c m ok => exact absurd hm (by simp [isMark])
  have hSlen : ((subs.map (fun c =>
      BEvent.send c (BMsg.header arts.length)
          (sendOk c (BMsg.header arts.length)) ::
        (arts.map (fun a =>
            BEvent.send c (BMsg.item a) (sendOk c (BMsg.item a))) ++
          [BEvent.send c BMsg.footer (sendOk c BMsg.footer)]))).flatten).length =
      subs.length * (arts.length + 2) := by
    rw [List.length_flatten, List.map_map]
    have hcomp : (List.length ∘ fun c =>
        BEvent.send c (BMsg.header arts.length)
            (sendOk c (BMsg.header arts.length)) ::
          (arts.map (fun a =>
              BEvent.send c (BMsg.item a) (sendOk c (BMsg.item a))) ++
            [BEvent.send c BMsg.footer (sendOk c BMsg.footer)])) =
        fun _ => arts.length + 2 := by
      funext c
      simp
    rw [hcomp, List.map_const', List.sum_const_nat]
  rw [hev, List.filter_append, List.filter_append, hMmark, hMsend, hSmark,
    hSsend, List.nil_append, List.append_nil]
  exact ⟨List.length_map arts _, hSlen, rfl⟩

/-- Witness for `broadcast_marks_before_sends`: with 2 subscribers and 3
articles (and a transport failing every send), `mark_as_sent` is called
exactly 3 times, `send_message` exactly 2 × (3 + 2) = 10 times, and all marks
precede all sends. -/
theorem broadcast_marks_before_sends_witness :
    (["s1", "s2"] ≠ ([] : List String) ∧
      [(⟨"u1", "t1", none⟩ : Article), ⟨"u2", "t2", none⟩, ⟨"u3", "t3", none⟩] ≠
        []) ∧
    (((broadcast_articles (fun _ _ => false) ["s1", "s2"]
        [⟨"u1", "t1", none⟩, ⟨"u2", "t2", none⟩, ⟨"u3", "t3", none⟩] [] 0).2.filter
          isMark).length =
      [(⟨"u1", "t1", none⟩ : Article), ⟨"u2", "t2", none⟩,
        ⟨"u3", "t3", none⟩].length ∧
    ((broadcast_articles (fun _ _ => false) ["s1", "s2"]
        [⟨"u1", "t1", none⟩, ⟨"u2", "t2", none⟩, ⟨"u3", "t3", none⟩] [] 0).2.filter
          isSend).length =
      ["s1", "s2"].length *
        ([(⟨"u1", "t1", none⟩ : Article), ⟨"u2", "t2", none⟩,
          ⟨"u3", "t3", none⟩].length + 2) ∧
    (broadcast_articles (fun _ _ => false) ["s1", "s2"]
        [⟨"u1", "t1", none⟩, ⟨"u2", "t2", none⟩, ⟨"u3", "t3", none⟩] [] 0).2 =
      (broadcast_articles (fun _ _ => false) ["s1", "s2"]
          [⟨"u1", "t1", none⟩, ⟨"u2", "t2", none⟩, ⟨"u3", "t3", none⟩] [] 0).2.filter
        isMark ++
        (broadcast_articles (fun _ _ => false) ["s1", "s2"]
            [⟨"u1", "t1", none⟩, ⟨"u2", "t2", none⟩, ⟨"u3", "t3", none⟩] []
            0).2.filter isSend) ∧
    ["s1", "s2"].length *
      ([(⟨"u1", "t1", none⟩ : Article), ⟨"u2", "t2", none⟩,
        ⟨"u3", "t3", none⟩].length + 2) = 10 ∧
    [(⟨"u1", "t1", none⟩ : Article), ⟨"u2", "t2", none⟩,
      ⟨"u3", "t3", none⟩].length = 3 :=
  ⟨⟨by decide, by decide⟩,
    broadcast_marks_before_sends (fun _ _ => false) ["s1", "s2"]
      [⟨"u1", "t1", none⟩, ⟨"u2", "t2", none⟩, ⟨"u3", "t3", none⟩] [] 0
      (by decide) (by decide),
    by decide, by decide⟩

/-- Claim C4, counterexample: sweeping one removable record does remove it and
persist, but the method's return value is `None` (there is no `return`
statement), not the removed count 1 that the claim states. -/
theorem sweep_returns_none_cex :
    cleanup_old_entries [("u1", ⟨"X", some 0⟩)] 86400 0 =
      Except.ok ⟨[], true, none⟩ ∧
    (none : Option Int) ≠ some 1 := by
  refine ⟨by decide, by decide⟩

/-- Claim C4 as amended: on a store whose timestamps all parse,
`cleanup_old_entries` keeps exactly the records whose delivery timestamp is
strictly newer than `now - days`, persists if and only if at least one record
was removed, and returns no value (the removed count is only logged; the
Python return value is `None`). -/
theorem sweep_behavior (sent : List (String × DeliveryRecord)) (now days : Int)
    (hgood : sent.all (fun p => p.2.sent_at.isSome) = true) :
    (∀ p, p ∈ (cleanup_run sent now days).1 ↔
      p ∈ sent ∧ ∃ t, p.2.sent_at = some t ∧ now - days * secondsPerDay < t) ∧
    ((cleanup_run sent now days).2 = true ↔
      (cleanup_run sent now days).1.length < sent.length) ∧
    cleanup_old_entries sent now days =
      Except.ok ⟨(cleanup_run sent now days).1, (cleanup_run sent now days).2,
        none⟩ := by
  have hok : cleanup_old_entries sent now days =
      Except.ok ⟨sent.filter (fun p =>
          match p.2.sent_at with
          | some t => decide (now - days * secondsPerDay < t)
          | none => false),
        decide (0 < sent.length - (sent.filter (fun p =>
          match p.2.sent_at with
          | some t => decide (now - days * secondsPerDay < t)
          | none => false)).length), none⟩ := by
    unfold cleanup_old_entries
    rw [if_pos hgood]
  have hrun : cleanup_run sent now days =
      (sent.filter (fun p =>
          match p.2.sent_at with
          | some t => decide (now - days * secondsPerDay < t)
          | none => false),
        decide (0 < sent.length - (sent.filter (fun p =>
          match p.2.sent_at with
          | some t => decide (now - days * secondsPerDay < t)
          | none => false)).length)) := by
    unfold cleanup_run
    rw [hok]
  refine ⟨?_, ?_, ?_⟩
  · intro p
    rw [hrun]
    show p ∈ sent.filter _ ↔ _
    rw [List.mem_filter]
    constructor
    · rintro ⟨hp, hcond⟩
      refine ⟨hp, ?_⟩
      cases hpt : p.2.sent_at with
      | some t =>
        rw [hpt] at hcond
        exact ⟨t, rfl, of_decide_eq_true hcond⟩
      | none => rw [hpt] at hcond; exact absurd hcond (by simp)
    · rintro ⟨hp, t, hpt, hlt⟩
      refine ⟨hp, ?_⟩
      rw [hpt]
      exact decide_eq_true hlt
  · rw [hrun]
    show decide _ = true ↔ _
    rw [decide_eq_true_eq]
    exact Nat.sub_pos_iff_lt
  · rw [hrun, hok]

/-- Witness for `sweep_behavior`: the spec scenario — one record exactly one
day old; a 30-day sweep removes nothing and does not persist, a 0-day sweep
removes the record and persists; in both cases the call returns `None`. -/
theorem sweep_behavior_witness :
    ([("u1", (⟨"X", some 0⟩ : DeliveryRecord))].all
        (fun p => p.2.sent_at.isSome) = true) ∧
    ((cleanup_run [("u1", ⟨"X", some 0⟩)] 86400 30).2 = true ↔
      (cleanup_run [("u1", ⟨"X", some 0⟩)] 86400 30).1.length <
        [("u1", (⟨"X", some 0⟩ : DeliveryRecord))].length) ∧
    cleanup_run [("u1", ⟨"X", some 0⟩)] 86400 30 =
      ([("u1", ⟨"X", some 0⟩)], false) ∧
    cleanup_run [("u1", ⟨"X", some 0⟩)] 86400 0 = ([], true) ∧
    cleanup_old_entries [("u1", ⟨"X", some 0⟩)] 86400 30 =
      Except.ok ⟨[("u1", ⟨"X", some 0⟩)], false, none⟩ :=
  ⟨by decide,
    (sweep_behavior [("u1", ⟨"X", some 0⟩)] 86400 30 (by decide)).2.1,
    by decide, by decide, by decide⟩

end NewsBot
